import Mathlib

/-!
Verification of the Blender MinIO/S3 integration addon (`addon.py`).

Python strings are modelled as lists of characters (`Chars`), Python dicts
mapping path segments to sub-dicts as insertion-ordered association-list
trees (`FTree`), the Python `set` of expanded folders as a `Finset`, and the
module-level mutable globals as an explicit `AddonState` record threaded
through the operations.  Calls into the `boto3`/`minio` SDKs, the logger and
Blender's operator-report mechanism are recorded as explicit events so that
theorems can speak about which external calls each operation performs.
-/

set_option autoImplicit false

/-- Python strings, modelled as lists of characters. -/
abbrev Chars := List Char

/-- Python's `s.split("/")`: split a string at every `'/'`, keeping empty
segments, so that `"" ↦ [""]`, `"a/" ↦ ["a", ""]`, `"a/b" ↦ ["a", "b"]`. -/
def splitSlash : Chars → List Chars
  | [] => [[]]
  | c :: rest =>
    if c = '/' then [] :: splitSlash rest
    else
      match splitSlash rest with
      | [] => [[c]]
      | x :: xs => (c :: x) :: xs

/-- The nested-dict file tree of `build_file_tree`: each node carries its
children as an insertion-ordered association list from segment name to
subtree.  A file (leaf) is a node with no children. -/
inductive FTree : Type where
  | node : List (Chars × FTree) → FTree

/-- Body of the `for part in parts` loop of `build_file_tree` /
`background_update`: walk the tree along the segment list, creating an empty
child (appended at the end, as Python dict insertion does) whenever the
segment is absent at the current level. -/
def insertKeyParts : List Chars → FTree → FTree
  | [], t => t
  | p :: ps, FTree.node cs =>
    if cs.any (fun c => decide (c.1 = p)) then
      FTree.node (cs.map (fun c => if c.1 = p then (c.1, insertKeyParts ps c.2) else c))
    else
      FTree.node (cs ++ [(p, insertKeyParts ps (FTree.node []))])

/-- `build_file_tree` (addon.py lines 200-209, identical inline copy in
`CloudUpdateFileListOperator.execute`): split every key on `'/'` and extend
the nested mapping along the resulting segment path. -/
def build_file_tree (file_list : List Chars) : FTree :=
  file_list.foldl (fun tree item => insertKeyParts (splitSlash item) tree) (FTree.node [])

/-- The segment path `p` names a node of the tree (the root for `p = []`). -/
def hasNode : FTree → List Chars → Bool
  | _, [] => true
  | FTree.node cs, x :: ps => cs.any (fun c => decide (c.1 = x) && hasNode c.2 ps)

/-- The segment path `p` names a node of the tree that has at least one
child, i.e. a non-empty sub-mapping. -/
def hasChild : FTree → List Chars → Bool
  | FTree.node cs, [] => !cs.isEmpty
  | FTree.node cs, x :: ps => cs.any (fun c => decide (c.1 = x) && hasChild c.2 ps)

/-- `p` is a leaf of the tree: a non-root node whose sub-mapping is empty. -/
def isLeafPath (t : FTree) (p : List Chars) : Bool :=
  !p.isEmpty && (hasNode t p && !hasChild t p)

/-- `p` is a directory node of the tree: a non-root node whose sub-mapping
is non-empty. -/
def isDirPath (t : FTree) (p : List Chars) : Bool :=
  !p.isEmpty && hasChild t p

/-! ### Characterization of the nodes of a built tree -/

theorem splitSlash_ne_nil (s : Chars) : splitSlash s ≠ [] := by
  cases s with
  | nil => simp [splitSlash]
  | cons c rest =>
    simp only [splitSlash]
    split
    · simp
    · split <;> simp

theorem hasNode_empty (p : List Chars) : hasNode (FTree.node []) p = decide (p = []) := by
  cases p <;> simp [hasNode]

theorem hasChild_empty (p : List Chars) : hasChild (FTree.node []) p = false := by
  cases p <;> simp [hasChild]

theorem any_update_hasNode (cs : List (Chars × FTree)) (a x : Chars)
    (as ps : List Chars) :
    ((cs.map (fun c => if c.1 = a then (c.1, insertKeyParts as c.2) else c)).any
        (fun c => decide (c.1 = x) && hasNode c.2 ps))
      = if x = a then
          cs.any (fun c => decide (c.1 = x) && hasNode (insertKeyParts as c.2) ps)
        else cs.any (fun c => decide (c.1 = x) && hasNode c.2 ps) := by
  induction cs with
  | nil => simp
  | cons c cs ih =>
    simp only [List.map_cons, List.any_cons, ih]
    by_cases hxa : x = a
    · subst hxa
      rw [if_pos rfl, if_pos rfl]
      by_cases hc : c.1 = x <;> simp [hc]
    · rw [if_neg hxa, if_neg hxa]
      by_cases hc : c.1 = a
      · have hax : decide (a = x) = false := decide_eq_false (fun h => hxa h.symm)
        simp [hc, hax]
      · simp [hc]

theorem any_update_hasChild (cs : List (Chars × FTree)) (a x : Chars)
    (as ps : List Chars) :
    ((cs.map (fun c => if c.1 = a then (c.1, insertKeyParts as c.2) else c)).any
        (fun c => decide (c.1 = x) && hasChild c.2 ps))
      = if x = a then
          cs.any (fun c => decide (c.1 = x) && hasChild (insertKeyParts as c.2) ps)
        else cs.any (fun c => decide (c.1 = x) && hasChild c.2 ps) := by
  induction cs with
  | nil => simp
  | cons c cs ih =>
    simp only [List.map_cons, List.any_cons, ih]
    by_cases hxa : x = a
    · subst hxa
      rw [if_pos rfl, if_pos rfl]
      by_cases hc : c.1 = x <;> simp [hc]
    · rw [if_neg hxa, if_neg hxa]
      by_cases hc : c.1 = a
      · have hax : decide (a = x) = false := decide_eq_false (fun h => hxa h.symm)
        simp [hc, hax]
      · simp [hc]

theorem any_hasNode_or_const (cs : List (Chars × FTree)) (x : Chars)
    (ps : List Chars) (B : Bool) :
    (cs.any (fun c => decide (c.1 = x) && (hasNode c.2 ps || B)))
      = (cs.any (fun c => decide (c.1 = x) && hasNode c.2 ps)
          || (cs.any (fun c => decide (c.1 = x)) && B)) := by
  rw [Bool.eq_iff_iff]
  simp only [List.any_eq_true, Bool.and_eq_true, Bool.or_eq_true, decide_eq_true_eq]
  constructor
  · rintro ⟨c, hc, hcx, hn | hB⟩
    · exact Or.inl ⟨c, hc, hcx, hn⟩
    · exact Or.inr ⟨⟨c, hc, hcx⟩, hB⟩
  · rintro (⟨c, hc, hcx, hn⟩ | ⟨⟨c, hc, hcx⟩, hB⟩)
    · exact ⟨c, hc, hcx, Or.inl hn⟩
    · exact ⟨c, hc, hcx, Or.inr hB⟩

theorem any_hasChild_or_const (cs : List (Chars × FTree)) (x : Chars)
    (ps : List Chars) (B : Bool) :
    (cs.any (fun c => decide (c.1 = x) && (hasChild c.2 ps || B)))
      = (cs.any (fun c => decide (c.1 = x) && hasChild c.2 ps)
          || (cs.any (fun c => decide (c.1 = x)) && B)) := by
  rw [Bool.eq_iff_iff]
  simp only [List.any_eq_true, Bool.and_eq_true, Bool.or_eq_true, decide_eq_true_eq]
  constructor
  · rintro ⟨c, hc, hcx, hn | hB⟩
    · exact Or.inl ⟨c, hc, hcx, hn⟩
    · exact Or.inr ⟨⟨c, hc, hcx⟩, hB⟩
  · rintro (⟨c, hc, hcx, hn⟩ | ⟨⟨c, hc, hcx⟩, hB⟩)
    · exact ⟨c, hc, hcx, Or.inl hn⟩
    · exact ⟨c, hc, hcx, Or.inr hB⟩

theorem hasNode_insertKeyParts (k : List Chars) (t : FTree) (p : List Chars) :
    hasNode (insertKeyParts k t) p = (hasNode t p || p.isPrefixOf k) := by
  induction k generalizing t p with
  | nil =>
    cases p with
    | nil => simp [insertKeyParts, hasNode]
    | cons x ps => simp [insertKeyParts, hasNode, List.isPrefixOf]
  | cons a as ih =>
    obtain ⟨cs⟩ := t
    cases p with
    | nil => simp [hasNode]
    | cons x ps =>
      simp only [insertKeyParts]
      by_cases hmem : cs.any (fun c => decide (c.1 = a)) = true
      · rw [if_pos hmem]
        simp only [hasNode, any_update_hasNode]
        by_cases hxa : x = a
        · subst hxa
          rw [if_pos rfl]
          simp only [ih]
          rw [any_hasNode_or_const, hmem]
          have hpre : List.isPrefixOf (x :: ps) (x :: as) = List.isPrefixOf ps as := by
            simp [List.isPrefixOf]
          simp [hpre]
        · rw [if_neg hxa]
          have hpre : List.isPrefixOf (x :: ps) (a :: as) = false := by
            simp [List.isPrefixOf, hxa]
          simp [hpre]
      · rw [if_neg hmem]
        simp only [hasNode, List.any_append, List.any_cons, List.any_nil, ih, hasNode_empty]
        by_cases hxa : x = a
        · subst hxa
          have habs : (decide (ps = []) || List.isPrefixOf ps as) = List.isPrefixOf ps as := by
            cases ps <;> simp [List.isPrefixOf]
          have hpre : List.isPrefixOf (x :: ps) (x :: as) = List.isPrefixOf ps as := by
            simp [List.isPrefixOf]
          simp [habs, hpre]
        · have hpre : List.isPrefixOf (x :: ps) (a :: as) = false := by
            simp [List.isPrefixOf, hxa]
          have hax : decide (a = x) = false := decide_eq_false (fun h => hxa h.symm)
          simp [hpre, hax]

theorem hasChild_insertKeyParts (k : List Chars) (t : FTree) (p : List Chars) :
    hasChild (insertKeyParts k t) p
      = (hasChild t p || (p.isPrefixOf k && !k.isPrefixOf p)) := by
  induction k generalizing t p with
  | nil =>
    have h : ∀ q : List Chars, (List.isPrefixOf q [] && !List.isPrefixOf [] q) = false := by
      intro q
      simp [List.isPrefixOf]
    simp [insertKeyParts, h]
  | cons a as ih =>
    obtain ⟨cs⟩ := t
    cases p with
    | nil =>
      simp only [insertKeyParts]
      by_cases hmem : cs.any (fun c => decide (c.1 = a)) = true
      · rw [if_pos hmem]
        cases cs with
        | nil => simp at hmem
        | cons c' cs' => simp [hasChild, List.isPrefixOf]
      · rw [if_neg hmem]
        simp [hasChild, List.isPrefixOf]
    | cons x ps =>
      simp only [insertKeyParts]
      by_cases hmem : cs.any (fun c => decide (c.1 = a)) = true
      · rw [if_pos hmem]
        simp only [hasChild, any_update_hasChild]
        by_cases hxa : x = a
        · subst hxa
          rw [if_pos rfl]
          simp only [ih]
          rw [any_hasChild_or_const, hmem]
          have hpre : List.isPrefixOf (x :: ps) (x :: as) = List.isPrefixOf ps as := by
            simp [List.isPrefixOf]
          have hpre2 : List.isPrefixOf (x :: as) (x :: ps) = List.isPrefixOf as ps := by
            simp [List.isPrefixOf]
          simp [hpre, hpre2]
        · rw [if_neg hxa]
          have hpre : List.isPrefixOf (x :: ps) (a :: as) = false := by
            simp [List.isPrefixOf, hxa]
          simp [hpre]
      · rw [if_neg hmem]
        simp only [hasChild, List.any_append, List.any_cons, List.any_nil, ih, hasChild_empty]
        by_cases hxa : x = a
        · subst hxa
          have hpre : List.isPrefixOf (x :: ps) (x :: as) = List.isPrefixOf ps as := by
            simp [List.isPrefixOf]
          have hpre2 : List.isPrefixOf (x :: as) (x :: ps) = List.isPrefixOf as ps := by
            simp [List.isPrefixOf]
          simp [hpre, hpre2]
        · have hpre : List.isPrefixOf (x :: ps) (a :: as) = false := by
            simp [List.isPrefixOf, hxa]
          have hax : decide (a = x) = false := decide_eq_false (fun h => hxa h.symm)
          simp [hpre, hax]

theorem hasNode_foldl (ks : List (List Chars)) (t : FTree) (p : List Chars) :
    hasNode (ks.foldl (fun tree k => insertKeyParts k tree) t) p
      = (hasNode t p || ks.any (fun k => p.isPrefixOf k)) := by
  induction ks generalizing t with
  | nil => simp
  | cons k ks ih =>
    simp only [List.foldl_cons, List.any_cons, ih, hasNode_insertKeyParts]
    rw [Bool.or_assoc]

theorem hasChild_foldl (ks : List (List Chars)) (t : FTree) (p : List Chars) :
    hasChild (ks.foldl (fun tree k => insertKeyParts k tree) t) p
      = (hasChild t p || ks.any (fun k => p.isPrefixOf k && !k.isPrefixOf p)) := by
  induction ks generalizing t with
  | nil => simp
  | cons k ks ih =>
    simp only [List.foldl_cons, List.any_cons, ih, hasChild_insertKeyParts]
    rw [Bool.or_assoc]

theorem hasNode_build (files : List Chars) (p : List Chars) :
    hasNode (build_file_tree files) p
      = (decide (p = []) || files.any (fun f => p.isPrefixOf (splitSlash f))) := by
  have h : build_file_tree files
      = (files.map splitSlash).foldl (fun tree k => insertKeyParts k tree) (FTree.node []) := by
    rw [build_file_tree, List.foldl_map]
  rw [h, hasNode_foldl, hasNode_empty, Bool.eq_iff_iff]
  simp [List.any_eq_true]

theorem hasChild_build (files : List Chars) (p : List Chars) :
    hasChild (build_file_tree files) p
      = files.any (fun f => p.isPrefixOf (splitSlash f) && !(splitSlash f).isPrefixOf p) := by
  have h : build_file_tree files
      = (files.map splitSlash).foldl (fun tree k => insertKeyParts k tree) (FTree.node []) := by
    rw [build_file_tree, List.foldl_map]
  rw [h, hasChild_foldl, hasChild_empty, Bool.eq_iff_iff]
  simp [List.any_eq_true]

theorem hasNode_build_iff (files : List Chars) (p : List Chars) :
    hasNode (build_file_tree files) p = true ↔
      p = [] ∨ ∃ f ∈ files, p <+: splitSlash f := by
  rw [hasNode_build]
  simp [List.any_eq_true, List.isPrefixOf_iff_prefix]

theorem hasChild_build_iff (files : List Chars) (p : List Chars) :
    hasChild (build_file_tree files) p = true ↔
      ∃ f ∈ files, p <+: splitSlash f ∧ ¬splitSlash f <+: p := by
  rw [hasChild_build]
  simp [List.any_eq_true, List.isPrefixOf_iff_prefix, Bool.eq_false_iff, ne_eq]

theorem prefix_proper_iff (p q : List Chars) :
    (p <+: q ∧ ¬q <+: p) ↔ (p <+: q ∧ p ≠ q) := by
  constructor
  · rintro ⟨h1, h2⟩
    exact ⟨h1, fun he => h2 (he ▸ List.prefix_refl q)⟩
  · rintro ⟨h1, h2⟩
    refine ⟨h1, fun h => h2 ?_⟩
    exact h1.eq_of_length (Nat.le_antisymm h1.length_le h.length_le)

/-- C1 (amended): for a list of keys in which no key's segment sequence is a
proper prefix of another key's segment sequence, the leaves of the built tree
are exactly the keys' segment paths, the directory nodes are exactly the
proper non-empty prefixes of the keys' segment paths, and the example list
`["a/b.stl", "a/c/d.obj", "e.gbx"]` yields exactly the tree
`{a: {b.stl: {}, c: {d.obj: {}}}, e.gbx: {}}`. -/
theorem build_file_tree_leaves_dirs_of_prefixFree (files : List Chars)
    (hpf : ∀ f ∈ files, ∀ g ∈ files,
      splitSlash f <+: splitSlash g → splitSlash f = splitSlash g) :
    (∀ p, isLeafPath (build_file_tree files) p = true ↔ ∃ f ∈ files, p = splitSlash f)
    ∧ (∀ p, isDirPath (build_file_tree files) p = true ↔
        p ≠ [] ∧ ∃ f ∈ files, p <+: splitSlash f ∧ p ≠ splitSlash f)
    ∧ build_file_tree (["a/b.stl".data, "a/c/d.obj".data, "e.gbx".data])
        = FTree.node
            [(("a".data), FTree.node
                [(("b.stl".data), FTree.node []),
                 (("c".data), FTree.node [(("d.obj".data), FTree.node [])])]),
             (("e.gbx".data), FTree.node [])] := by
  refine ⟨?_, ?_, rfl⟩
  · intro p
    simp only [isLeafPath, Bool.and_eq_true, Bool.not_eq_true']
    constructor
    · rintro ⟨hne, hnode, hchild⟩
      have hpne : p ≠ [] := by
        intro h0
        rw [h0] at hne
        simp at hne
      rcases (hasNode_build_iff files p).mp hnode with rfl | ⟨f, hf, hpre⟩
      · exact absurd rfl hpne
      · rcases eq_or_ne p (splitSlash f) with heq | hneq
        · exact ⟨f, hf, heq⟩
        · exfalso
          have hprop := (prefix_proper_iff p (splitSlash f)).mpr ⟨hpre, hneq⟩
          have hc : hasChild (build_file_tree files) p = true :=
            (hasChild_build_iff files p).mpr ⟨f, hf, hprop.1, hprop.2⟩
          rw [hc] at hchild
          simp at hchild
    · rintro ⟨f, hf, rfl⟩
      refine ⟨?_, ?_, ?_⟩
      · cases hsf : splitSlash f with
        | nil => exact absurd hsf (splitSlash_ne_nil f)
        | cons x xs => simp
      · exact (hasNode_build_iff files (splitSlash f)).mpr
          (Or.inr ⟨f, hf, List.prefix_refl (splitSlash f)⟩)
      · by_contra hch
        have hch' : hasChild (build_file_tree files) (splitSlash f) = true := by
          cases h : hasChild (build_file_tree files) (splitSlash f) with
          | true => rfl
          | false => exact absurd h hch
        obtain ⟨g, hg, hpre, hrev⟩ := (hasChild_build_iff files (splitSlash f)).mp hch'
        exact hrev ((hpf f hf g hg hpre) ▸ List.prefix_refl (splitSlash f))
  · intro p
    simp only [isDirPath, Bool.and_eq_true, Bool.not_eq_true']
    constructor
    · rintro ⟨hne, hchild⟩
      have hpne : p ≠ [] := by
        intro h0
        rw [h0] at hne
        simp at hne
      obtain ⟨f, hf, hpre, hrev⟩ := (hasChild_build_iff files p).mp hchild
      exact ⟨hpne, f, hf, (prefix_proper_iff p (splitSlash f)).mp ⟨hpre, hrev⟩⟩
    · rintro ⟨hpne, f, hf, hprop⟩
      have hproper := (prefix_proper_iff p (splitSlash f)).mpr hprop
      refine ⟨?_, (hasChild_build_iff files p).mpr ⟨f, hf, hproper.1, hproper.2⟩⟩
      cases p with
      | nil => exact absurd rfl hpne
      | cons x ps => simp

/-- C1 counterexample: for the key list `["a", "a/b"]` the segment path of
the key `"a"` is not a leaf of the built tree (it became a directory), so
the leaves are not exactly the set of keys for every input list. -/
theorem build_file_tree_leaf_counterexample :
    (∃ f ∈ (["a".data, "a/b".data] : List Chars), splitSlash ("a".data) = splitSlash f)
    ∧ isLeafPath (build_file_tree (["a".data, "a/b".data])) (splitSlash ("a".data)) = false := by
  decide

/-- Witness for `build_file_tree_leaves_dirs_of_prefixFree`: the example key
list is prefix-free, and the theorem makes `e.gbx` a leaf of its tree. -/
theorem build_file_tree_leaves_dirs_witness :
    (∀ f ∈ (["a/b.stl".data, "a/c/d.obj".data, "e.gbx".data] : List Chars),
      ∀ g ∈ (["a/b.stl".data, "a/c/d.obj".data, "e.gbx".data] : List Chars),
        splitSlash f <+: splitSlash g → splitSlash f = splitSlash g)
    ∧ isLeafPath (build_file_tree (["a/b.stl".data, "a/c/d.obj".data, "e.gbx".data]))
        (splitSlash ("e.gbx".data)) = true :=
  ⟨by decide,
    ((build_file_tree_leaves_dirs_of_prefixFree
        (["a/b.stl".data, "a/c/d.obj".data, "e.gbx".data]) (by decide)).1
      (splitSlash ("e.gbx".data))).mpr ⟨("e.gbx".data), by decide, rfl⟩⟩

/-! ### Keys with trailing or doubled slashes (empty segments) -/

/-- The key ends in the character `'/'` (Python `key.endswith("/")`). -/
def endsWithSlash (s : Chars) : Bool :=
  ([('/' : Char)] : Chars).isSuffixOf s

/-- The key contains two consecutive `'/'` characters. -/
def hasDoubleSlash : Chars → Bool
  | c :: d :: rest => (decide (c = '/') && decide (d = '/')) || hasDoubleSlash (d :: rest)
  | _ => false

theorem splitSlash_append_slash (a b : Chars) :
    splitSlash (a ++ '/' :: b) = splitSlash a ++ splitSlash b := by
  induction a with
  | nil => simp [splitSlash]
  | cons c a ih =>
    by_cases hc : c = '/'
    · subst hc
      simp [splitSlash, ih]
    · cases hsa : splitSlash a with
      | nil => exact absurd hsa (splitSlash_ne_nil a)
      | cons x xs => simp [splitSlash, if_neg hc, ih, hsa]

theorem hasDoubleSlash_exists (s : Chars) (h : hasDoubleSlash s = true) :
    ∃ u v, s = u ++ '/' :: '/' :: v := by
  induction s with
  | nil => simp [hasDoubleSlash] at h
  | cons c rest ih =>
    cases rest with
    | nil => simp [hasDoubleSlash] at h
    | cons d rest2 =>
      simp only [hasDoubleSlash, Bool.or_eq_true, Bool.and_eq_true,
        decide_eq_true_eq] at h
      rcases h with ⟨rfl, rfl⟩ | h2
      · exact ⟨[], rest2, rfl⟩
      · obtain ⟨u, v, huv⟩ := ih h2
        exact ⟨c :: u, v, by rw [List.cons_append, huv]⟩

/-- C10: a key ending in `'/'` or containing consecutive slashes contributes
a node named by the empty string to the built tree; in particular the single
key `"a/"` yields the tree `{a: {"": {}}}`. -/
theorem build_file_tree_empty_segment (files : List Chars) (k : Chars)
    (hk : k ∈ files) (h : (endsWithSlash k || hasDoubleSlash k) = true) :
    build_file_tree (["a/".data])
        = FTree.node [(("a".data), FTree.node [([], FTree.node [])])]
    ∧ ∃ p, hasNode (build_file_tree files) (p ++ [[]]) = true := by
  refine ⟨rfl, ?_⟩
  have h2 : endsWithSlash k = true ∨ hasDoubleSlash k = true := by simpa using h
  rcases h2 with hslash | hdbl
  · obtain ⟨a, ha⟩ : ([('/' : Char)] : Chars) <:+ k :=
      List.isSuffixOf_iff_suffix.mp hslash
    refine ⟨splitSlash a, (hasNode_build_iff files _).mpr (Or.inr ⟨k, hk, ?_⟩)⟩
    have hsplit : splitSlash k = splitSlash a ++ [[]] := by
      rw [← ha]
      have : a ++ [('/' : Char)] = a ++ '/' :: ([] : Chars) := rfl
      rw [this, splitSlash_append_slash]
      simp [splitSlash]
    rw [hsplit]
  · obtain ⟨u, v, huv⟩ := hasDoubleSlash_exists k hdbl
    refine ⟨splitSlash u, (hasNode_build_iff files _).mpr (Or.inr ⟨k, hk, ?_⟩)⟩
    have hsplit : splitSlash k = (splitSlash u ++ [[]]) ++ splitSlash v := by
      rw [huv]
      have : (u ++ '/' :: '/' :: v) = u ++ '/' :: ('/' :: v) := rfl
      rw [this, splitSlash_append_slash]
      simp [splitSlash]
    rw [hsplit]
    exact ⟨splitSlash v, rfl⟩

/-- Witness for `build_file_tree_empty_segment` at the key list `["a/"]`. -/
theorem build_file_tree_empty_segment_witness :
    (("a/".data) ∈ (["a/".data] : List Chars))
    ∧ (endsWithSlash ("a/".data) || hasDoubleSlash ("a/".data)) = true
    ∧ (build_file_tree (["a/".data])
          = FTree.node [(("a".data), FTree.node [([], FTree.node [])])]
        ∧ ∃ p, hasNode (build_file_tree (["a/".data])) (p ++ [[]]) = true) :=
  ⟨by decide, by decide,
    build_file_tree_empty_segment (["a/".data]) ("a/".data) (by decide) (by decide)⟩

/-! ### Folder expansion toggling -/

/-- `CloudToggleFolderOperator.execute` (addon.py lines 244-250): flip the
membership of `folder_path` in the global `expanded_folders` set. -/
def CloudToggleFolderOperator_execute (folder_path : Chars)
    (expanded_folders : Finset Chars) : Finset Chars :=
  if folder_path ∈ expanded_folders then expanded_folders.erase folder_path
  else insert folder_path expanded_folders

/-- C2: toggling the same folder path twice restores the expanded-folder set
to exactly its original value. -/
theorem toggle_folder_involutive (folder_path : Chars)
    (expanded_folders : Finset Chars) :
    CloudToggleFolderOperator_execute folder_path
        (CloudToggleFolderOperator_execute folder_path expanded_folders)
      = expanded_folders := by
  unfold CloudToggleFolderOperator_execute
  by_cases h : folder_path ∈ expanded_folders
  · rw [if_pos h, if_neg (Finset.not_mem_erase folder_path expanded_folders),
      Finset.insert_erase h]
  · rw [if_neg h, if_pos (Finset.mem_insert_self folder_path expanded_folders),
      Finset.erase_insert h]

/-! ### Connections, clients and the addon state -/

/-- The two values of the `cloud_type` enum property. -/
inductive CloudType : Type where
  | minio : CloudType
  | s3 : CloudType
deriving DecidableEq

/-- The `CloudConnection` property group. -/
structure Connection : Type where
  name : Chars
  cloud_type : CloudType
  endpoint_url : Chars
  access_key : Chars
  secret_key : Chars
  region_name : Chars
  bucket_name : Chars
deriving DecidableEq

/-- Python `str.replace(pat, rep)` scanning left to right, with the string
length as recursion fuel (each step consumes at least one character). -/
def replaceAux (pat rep : Chars) : Nat → Chars → Chars
  | _, [] => []
  | 0, s => s
  | fuel + 1, c :: rest =>
    if pat ≠ [] ∧ pat.isPrefixOf (c :: rest) then
      rep ++ replaceAux pat rep fuel (List.drop pat.length (c :: rest))
    else c :: replaceAux pat rep fuel rest

/-- Python `s.replace(pat, rep)`. -/
def pyReplace (s pat rep : Chars) : Chars :=
  replaceAux pat rep s.length s

/-- `endpoint_url.replace("http://", "").replace("https://", "")`. -/
def stripScheme (s : Chars) : Chars :=
  pyReplace (pyReplace s ("http://".data) []) ("https://".data) []

/-- The `Minio(...)` client object, recorded with its constructor args. -/
structure MinioClient : Type where
  endpoint : Chars
  access_key : Chars
  secret_key : Chars
  secure : Bool
deriving DecidableEq

/-- The `boto3.client("s3", ...)` object, recorded with its constructor args. -/
structure S3Client : Type where
  access_key : Chars
  secret_key : Chars
  region_name : Chars
deriving DecidableEq

/-- The Minio client constructed from a connection in `initialize_cloud_client`. -/
def mkMinioClient (conn : Connection) : MinioClient :=
  { endpoint := stripScheme conn.endpoint_url
    access_key := conn.access_key
    secret_key := conn.secret_key
    secure := ("https://".data).isPrefixOf conn.endpoint_url }

/-- The S3 client constructed from a connection in `initialize_cloud_client`. -/
def mkS3Client (conn : Connection) : S3Client :=
  { access_key := conn.access_key
    secret_key := conn.secret_key
    region_name := conn.region_name }

/-- The module-level mutable globals of addon.py. -/
structure AddonState : Type where
  s3_client : Option S3Client
  minio_client : Option MinioClient
  cached_file_list : List Chars
  cached_tree : FTree
  error_messages : List Chars
  expanded_folders : Finset Chars
  is_refreshing : Bool

/-- `error_messages.append(str(e))`. -/
def appendError (st : AddonState) (e : Chars) : AddonState :=
  { st with error_messages := st.error_messages ++ [e] }

/-! ### Events: SDK calls, client constructions, logging -/

/-- The SDK object-store calls the addon can issue, with their arguments. -/
inductive SdkCall : Type where
  | minio_list_objects (bucket : Chars)
  | s3_list_objects_v2 (bucket : Chars)
  | minio_fput_object (bucket key local_path : Chars)
  | s3_upload_file (local_path bucket key : Chars)
  | minio_fget_object (bucket key local_path : Chars)
  | s3_download_file (bucket key local_path : Chars)
  | minio_remove_object (bucket key : Chars)
  | s3_delete_object (bucket key : Chars)
deriving DecidableEq

/-- Externally visible actions of an operation: constructing an SDK client,
writing a `logger.error` line, issuing an SDK call, or requesting a file-list
refresh (`bpy.ops.cloud.update_file_list`). -/
inductive Event : Type where
  | init_minio (client : MinioClient)
  | init_s3 (client : S3Client)
  | log_error (msg : Chars)
  | sdk (call : SdkCall)
  | request_refresh
deriving DecidableEq

/-- The client-construction events among a trace. -/
def initsOf (evs : List Event) : List Event :=
  evs.filter (fun e =>
    match e with
    | Event.init_minio _ => true
    | Event.init_s3 _ => true
    | _ => false)

/-- The SDK calls among a trace, in order. -/
def sdkCallsOf (evs : List Event) : List SdkCall :=
  evs.filterMap (fun e =>
    match e with
    | Event.sdk c => some c
    | _ => none)

/-- Outcomes of the SDK calls: either a value or a raised exception text. -/
structure SdkEnv : Type where
  minio_list_objects : Chars → Except Chars (List Chars)
  s3_list_objects_v2 : Chars → Except Chars (List Chars)
  minio_fput_object : Chars → Chars → Chars → Except Chars Unit
  s3_upload_file : Chars → Chars → Chars → Except Chars Unit
  minio_fget_object : Chars → Chars → Chars → Except Chars Unit
  s3_download_file : Chars → Chars → Chars → Except Chars Unit
  minio_remove_object : Chars → Chars → Except Chars Unit
  s3_delete_object : Chars → Chars → Except Chars Unit

/-! ### Message texts -/

def noConnMsg : Chars := ("No active cloud connection.".data)

def listErrMsg (e : Chars) : Chars := ("Error listing files: ".data) ++ e

def uploadErrMsg (e : Chars) : Chars := ("Error uploading file: ".data) ++ e

def downloadErrMsg (e : Chars) : Chars := ("Error downloading file: ".data) ++ e

def deleteErrMsg (e : Chars) : Chars := ("Error deleting file: ".data) ++ e

def loadErrMsg (e : Chars) : Chars := ("Error loading file: ".data) ++ e

/-- The `AttributeError` text raised when a method is called on a client
global that is still `None`. -/
def attrErrNone (method : Chars) : Chars :=
  ("NoneType object has no attribute ".data) ++ method

/-! ### Path helpers (POSIX `os.path`) -/

/-- Python `os.path.basename` (POSIX): the characters after the last `'/'`. -/
def basename (s : Chars) : Chars :=
  s.foldl (fun acc c => if c = '/' then [] else acc ++ [c]) []

/-- Python `os.path.join` (POSIX) on two components. -/
def path_join (a b : Chars) : Chars :=
  if b.head? = some '/' then b
  else if a = [] ∨ a.getLast? = some '/' then a ++ b
  else a ++ '/' :: b

/-- Python `str.lower` on ASCII. -/
def toLowerStr (s : Chars) : Chars := s.map Char.toLower

/-! ### The storage operations -/

/-- `initialize_cloud_client` (addon.py lines 119-141): build the SDK client
for the active connection's cloud type and store it in the matching global;
with no active connection, log an error and change nothing. -/
def init_cloud_client (conn? : Option Connection) (st : AddonState) :
    AddonState × List Event :=
  match conn? with
  | none => (st, [Event.log_error noConnMsg])
  | some conn =>
    match conn.cloud_type with
    | CloudType.minio =>
      ({ st with minio_client := some (mkMinioClient conn) },
        [Event.init_minio (mkMinioClient conn)])
    | CloudType.s3 =>
      ({ st with s3_client := some (mkS3Client conn) },
        [Event.init_s3 (mkS3Client conn)])

/-- The client-construction event `initialize_cloud_client` performs for a
given connection. -/
def initEventFor (conn : Connection) : Event :=
  match conn.cloud_type with
  | CloudType.minio => Event.init_minio (mkMinioClient conn)
  | CloudType.s3 => Event.init_s3 (mkS3Client conn)

structure ListOutcome : Type where
  result : List Chars
  state : AddonState
  events : List Event

structure UploadOutcome : Type where
  result : Bool
  state : AddonState
  events : List Event

structure DownloadOutcome : Type where
  result : Option Chars
  state : AddonState
  events : List Event

/-- `list_files_in_bucket` (addon.py lines 411-433): with no active
connection, log and return `[]`; otherwise initialize the client only if the
global for the connection's cloud type is still `None`, then issue the one
listing call, returning `[]` and appending to `error_messages` on failure. -/
def list_files_in_bucket (env : SdkEnv) (conn? : Option Connection)
    (st : AddonState) : ListOutcome :=
  match conn? with
  | none => { result := [], state := st, events := [Event.log_error noConnMsg] }
  | some conn =>
    let initp : AddonState × List Event :=
      match conn.cloud_type with
      | CloudType.minio =>
        if st.minio_client = none then init_cloud_client (some conn) st else (st, [])
      | CloudType.s3 =>
        if st.s3_client = none then init_cloud_client (some conn) st else (st, [])
    match conn.cloud_type with
    | CloudType.minio =>
      match env.minio_list_objects conn.bucket_name with
      | Except.ok files =>
        { result := files, state := initp.1,
          events := initp.2 ++ [Event.sdk (SdkCall.minio_list_objects conn.bucket_name)] }
      | Except.error e =>
        { result := [], state := appendError initp.1 e,
          events := initp.2 ++ [Event.sdk (SdkCall.minio_list_objects conn.bucket_name),
            Event.log_error (listErrMsg e)] }
    | CloudType.s3 =>
      match env.s3_list_objects_v2 conn.bucket_name with
      | Except.ok files =>
        { result := files, state := initp.1,
          events := initp.2 ++ [Event.sdk (SdkCall.s3_list_objects_v2 conn.bucket_name)] }
      | Except.error e =>
        { result := [], state := appendError initp.1 e,
          events := initp.2 ++ [Event.sdk (SdkCall.s3_list_objects_v2 conn.bucket_name),
            Event.log_error (listErrMsg e)] }

/-- `upload_file` (addon.py lines 435-450): with no active connection, log
and return `False`; otherwise call the one matching put call on the existing
global client (never initializing it; a `None` client raises an
`AttributeError` that the broad `except` turns into an error-list entry). -/
def upload_file (env : SdkEnv) (conn? : Option Connection)
    (local_path remote_name : Chars) (st : AddonState) : UploadOutcome :=
  match conn? with
  | none => { result := false, state := st, events := [Event.log_error noConnMsg] }
  | some conn =>
    match conn.cloud_type with
    | CloudType.minio =>
      match st.minio_client with
      | none =>
        { result := false,
          state := appendError st (attrErrNone ("fput_object".data)),
          events := [Event.log_error (uploadErrMsg (attrErrNone ("fput_object".data)))] }
      | some _ =>
        match env.minio_fput_object conn.bucket_name remote_name local_path with
        | Except.ok _ =>
          { result := true, state := st,
            events := [Event.sdk
              (SdkCall.minio_fput_object conn.bucket_name remote_name local_path)] }
        | Except.error e =>
          { result := false, state := appendError st e,
            events := [Event.sdk
                (SdkCall.minio_fput_object conn.bucket_name remote_name local_path),
              Event.log_error (uploadErrMsg e)] }
    | CloudType.s3 =>
      match st.s3_client with
      | none =>
        { result := false,
          state := appendError st (attrErrNone ("upload_file".data)),
          events := [Event.log_error (uploadErrMsg (attrErrNone ("upload_file".data)))] }
      | some _ =>
        match env.s3_upload_file local_path conn.bucket_name remote_name with
        | Except.ok _ =>
          { result := true, state := st,
            events := [Event.sdk
              (SdkCall.s3_upload_file local_path conn.bucket_name remote_name)] }
        | Except.error e =>
          { result := false, state := appendError st e,
            events := [Event.sdk
                (SdkCall.s3_upload_file local_path conn.bucket_name remote_name),
              Event.log_error (uploadErrMsg e)] }

/-- `download_file` (addon.py lines 452-468): with no active connection, log
and return `None`; otherwise compute
`local_path = os.path.join(local_dir, os.path.basename(remote_name))`, issue
the one matching get call on the existing global client, and return the local
path on success or `None` (appending the exception text to `error_messages`)
on failure. -/
def download_file (env : SdkEnv) (conn? : Option Connection)
    (remote_name local_dir : Chars) (st : AddonState) : DownloadOutcome :=
  match conn? with
  | none => { result := none, state := st, events := [Event.log_error noConnMsg] }
  | some conn =>
    let local_path := path_join local_dir (basename remote_name)
    match conn.cloud_type with
    | CloudType.minio =>
      match st.minio_client with
      | none =>
        { result := none,
          state := appendError st (attrErrNone ("fget_object".data)),
          events := [Event.log_error (downloadErrMsg (attrErrNone ("fget_object".data)))] }
      | some _ =>
        match env.minio_fget_object conn.bucket_name remote_name local_path with
        | Except.ok _ =>
          { result := some local_path, state := st,
            events := [Event.sdk
              (SdkCall.minio_fget_object conn.bucket_name remote_name local_path)] }
        | Except.error e =>
          { result := none, state := appendError st e,
            events := [Event.sdk
                (SdkCall.minio_fget_object conn.bucket_name remote_name local_path),
              Event.log_error (downloadErrMsg e)] }
    | CloudType.s3 =>
      match st.s3_client with
      | none =>
        { result := none,
          state := appendError st (attrErrNone ("download_file".data)),
          events := [Event.log_error (downloadErrMsg (attrErrNone ("download_file".data)))] }
      | some _ =>
        match env.s3_download_file conn.bucket_name remote_name local_path with
        | Except.ok _ =>
          { result := some local_path, state := st,
            events := [Event.sdk
              (SdkCall.s3_download_file conn.bucket_name remote_name local_path)] }
        | Except.error e =>
          { result := none, state := appendError st e,
            events := [Event.sdk
                (SdkCall.s3_download_file conn.bucket_name remote_name local_path),
              Event.log_error (downloadErrMsg e)] }

/-! ### Blender operators -/

/-- The value returned by an operator's `execute`. -/
inductive OpResult : Type where
  | FINISHED : OpResult
  | CANCELLED : OpResult
deriving DecidableEq

/-- The level of a `self.report` call. -/
inductive ReportLevel : Type where
  | INFO : ReportLevel
  | ERROR : ReportLevel
deriving DecidableEq

structure OpOutcome : Type where
  result : OpResult
  state : AddonState
  events : List Event
  reports : List (ReportLevel × Chars)

/-- `CloudDownloadFileOperator.execute` (addon.py lines 364-381): always
re-initialize the client, then download into the temp directory, reporting
INFO/`FINISHED` on success and ERROR/`CANCELLED` on failure. -/
def CloudDownloadFileOperator_execute (env : SdkEnv) (conn? : Option Connection)
    (temp_dir file_name : Chars) (st : AddonState) : OpOutcome :=
  let ini := init_cloud_client conn? st
  let d := download_file env conn? file_name temp_dir ini.1
  match d.result with
  | some _ =>
    { result := OpResult.FINISHED, state := d.state, events := ini.2 ++ d.events,
      reports := [(ReportLevel.INFO, ("Downloaded ".data) ++ file_name)] }
  | none =>
    { result := OpResult.CANCELLED, state := d.state, events := ini.2 ++ d.events,
      reports := [(ReportLevel.ERROR, ("Failed to download file: ".data) ++ file_name)] }

/-- `CloudDeleteFileOperator.execute` (addon.py lines 389-409): no client
initialization; issue the one matching delete call on the existing global
client, then request a file-list refresh on success. -/
def CloudDeleteFileOperator_execute (env : SdkEnv) (conn? : Option Connection)
    (file_name : Chars) (st : AddonState) : OpOutcome :=
  match conn? with
  | none =>
    { result := OpResult.CANCELLED, state := st, events := [],
      reports := [(ReportLevel.ERROR, noConnMsg)] }
  | some conn =>
    match conn.cloud_type with
    | CloudType.minio =>
      match st.minio_client with
      | none =>
        { result := OpResult.CANCELLED,
          state := appendError st (attrErrNone ("remove_object".data)),
          events := [Event.log_error (deleteErrMsg (attrErrNone ("remove_object".data)))],
          reports := [(ReportLevel.ERROR,
            ("Failed to delete file: ".data) ++ attrErrNone ("remove_object".data))] }
      | some _ =>
        match env.minio_remove_object conn.bucket_name file_name with
        | Except.ok _ =>
          { result := OpResult.FINISHED, state := st,
            events := [Event.sdk (SdkCall.minio_remove_object conn.bucket_name file_name),
              Event.request_refresh],
            reports := [(ReportLevel.INFO, ("Deleted ".data) ++ file_name)] }
        | Except.error e =>
          { result := OpResult.CANCELLED, state := appendError st e,
            events := [Event.sdk (SdkCall.minio_remove_object conn.bucket_name file_name),
              Event.log_error (deleteErrMsg e)],
            reports := [(ReportLevel.ERROR, ("Failed to delete file: ".data) ++ e)] }
    | CloudType.s3 =>
      match st.s3_client with
      | none =>
        { result := OpResult.CANCELLED,
          state := appendError st (attrErrNone ("delete_object".data)),
          events := [Event.log_error (deleteErrMsg (attrErrNone ("delete_object".data)))],
          reports := [(ReportLevel.ERROR,
            ("Failed to delete file: ".data) ++ attrErrNone ("delete_object".data))] }
      | some _ =>
        match env.s3_delete_object conn.bucket_name file_name with
        | Except.ok _ =>
          { result := OpResult.FINISHED, state := st,
            events := [Event.sdk (SdkCall.s3_delete_object conn.bucket_name file_name),
              Event.request_refresh],
            reports := [(ReportLevel.INFO, ("Deleted ".data) ++ file_name)] }
        | Except.error e =>
          { result := OpResult.CANCELLED, state := appendError st e,
            events := [Event.sdk (SdkCall.s3_delete_object conn.bucket_name file_name),
              Event.log_error (deleteErrMsg e)],
            reports := [(ReportLevel.ERROR, ("Failed to delete file: ".data) ++ e)] }

/-- The Blender import operators `CloudLoadFileOperator.execute` can invoke. -/
inductive ImportCall : Type where
  | stl_import (filepath : Chars)
  | obj_import (filepath : Chars)
  | usd_import (filepath : Chars)
  | ply_import (filepath : Chars)
deriving DecidableEq

/-- Host-side behaviour seen by `CloudLoadFileOperator.execute`: whether the
downloaded path exists, and the outcome of each import operator. -/
structure HostEnv : Type where
  file_exists : Chars → Bool
  stl_import : Chars → Except Chars Unit
  obj_import : Chars → Except Chars Unit
  usd_import : Chars → Except Chars Unit
  ply_import : Chars → Except Chars Unit

structure LoadOutcome : Type where
  result : OpResult
  state : AddonState
  events : List Event
  reports : List (ReportLevel × Chars)
  imports : List ImportCall

def loadedMsg (fn kind : Chars) : Chars :=
  ("Loaded ".data) ++ fn ++ (" (".data) ++ kind ++ (") into the Blender scene.".data)

def notExistMsg (fn : Chars) : Chars :=
  ("File ".data) ++ fn ++ (" does not exist or failed to download.".data)

def gbxMsg : Chars := ("GBX file format is not supported.".data)

def unsupportedMsg (fn : Chars) : Chars :=
  fn ++ (" is not a supported file format.".data)

def failLoadMsg (e : Chars) : Chars := ("Failed to load file: ".data) ++ e

/-- Outcome of one import branch of `CloudLoadFileOperator.execute`: invoke
the import operator; on success report INFO and finish, on a raised exception
append to `error_messages`, log, report ERROR and cancel. -/
def runImport (d : DownloadOutcome) (evs : List Event)
    (call : ImportCall) (res : Except Chars Unit) (msg : Chars) : LoadOutcome :=
  match res with
  | Except.ok _ =>
    { result := OpResult.FINISHED, state := d.state, events := evs,
      reports := [(ReportLevel.INFO, msg)], imports := [call] }
  | Except.error e =>
    { result := OpResult.CANCELLED, state := appendError d.state e,
      events := evs ++ [Event.log_error (loadErrMsg e)],
      reports := [(ReportLevel.ERROR, failLoadMsg e)], imports := [call] }

/-- `CloudLoadFileOperator.execute` (addon.py lines 317-356): re-initialize
the client, download to the temp directory, then dispatch on the lower-cased
local path's extension; `.gbx` and unknown extensions are rejected with an
ERROR report and `CANCELLED`, without invoking any import operator. -/
def CloudLoadFileOperator_execute (env : SdkEnv) (host : HostEnv)
    (conn? : Option Connection) (temp_dir file_name : Chars)
    (st : AddonState) : LoadOutcome :=
  let ini := init_cloud_client conn? st
  let d := download_file env conn? file_name temp_dir ini.1
  match d.result with
  | none =>
    { result := OpResult.CANCELLED, state := d.state, events := ini.2 ++ d.events,
      reports := [(ReportLevel.ERROR, notExistMsg file_name)], imports := [] }
  | some local_path =>
    if host.file_exists local_path = false then
      { result := OpResult.CANCELLED, state := d.state, events := ini.2 ++ d.events,
        reports := [(ReportLevel.ERROR, notExistMsg file_name)], imports := [] }
    else
      let lowered := toLowerStr local_path
      if (".stl".data).isSuffixOf lowered then
        runImport d (ini.2 ++ d.events) (ImportCall.stl_import local_path)
          (host.stl_import local_path) (loadedMsg file_name ("STL".data))
      else if (".obj".data).isSuffixOf lowered then
        runImport d (ini.2 ++ d.events) (ImportCall.obj_import local_path)
          (host.obj_import local_path) (loadedMsg file_name ("OBJ".data))
      else if ((".usd".data).isSuffixOf lowered || (".usda".data).isSuffixOf lowered
          || (".usdc".data).isSuffixOf lowered) then
        runImport d (ini.2 ++ d.events) (ImportCall.usd_import local_path)
          (host.usd_import local_path) (loadedMsg file_name ("USD".data))
      else if (".ply".data).isSuffixOf lowered then
        runImport d (ini.2 ++ d.events) (ImportCall.ply_import local_path)
          (host.ply_import local_path) (loadedMsg file_name ("PLY".data))
      else if (".gbx".data).isSuffixOf lowered then
        { result := OpResult.CANCELLED, state := d.state, events := ini.2 ++ d.events,
          reports := [(ReportLevel.ERROR, gbxMsg)], imports := [] }
      else
        { result := OpResult.CANCELLED, state := d.state, events := ini.2 ++ d.events,
          reports := [(ReportLevel.ERROR, unsupportedMsg file_name)], imports := [] }

/-! ### The panel draw pass -/

/-- Python `l[-n:]`: the last `n` elements. -/
def lastN (n : Nat) (l : List Chars) : List Chars := l.drop (l.length - n)

structure DrawOutcome : Type where
  shown_errors : List Chars
  state : AddonState

/-- The error-list portion of `CloudIntegrationPanel.draw` (addon.py lines
177-198): while refreshing, draw a placeholder and return early; otherwise,
if there are error messages, show the last 5 and clear the list. -/
def CloudIntegrationPanel_draw (st : AddonState) : DrawOutcome :=
  if st.is_refreshing then { shown_errors := [], state := st }
  else if st.error_messages.isEmpty then { shown_errors := [], state := st }
  else
    { shown_errors := lastN 5 st.error_messages,
      state := { st with error_messages := [] } }

/-! ### Concrete fixtures for witnesses and counterexamples -/

def sampleMinioConn : Connection :=
  { name := ("conn".data)
    cloud_type := CloudType.minio
    endpoint_url := ("http://localhost:9000".data)
    access_key := ("ak".data)
    secret_key := ("sk".data)
    region_name := ("us-east-1".data)
    bucket_name := ("bucket".data) }

def emptyState : AddonState :=
  { s3_client := none
    minio_client := none
    cached_file_list := []
    cached_tree := FTree.node []
    error_messages := []
    expanded_folders := ∅
    is_refreshing := false }

def stateWithMinio : AddonState :=
  { emptyState with minio_client := some (mkMinioClient sampleMinioConn) }

/-- An SDK environment in which every call succeeds. -/
def okEnv : SdkEnv :=
  { minio_list_objects := fun _ => Except.ok []
    s3_list_objects_v2 := fun _ => Except.ok []
    minio_fput_object := fun _ _ _ => Except.ok ()
    s3_upload_file := fun _ _ _ => Except.ok ()
    minio_fget_object := fun _ _ _ => Except.ok ()
    s3_download_file := fun _ _ _ => Except.ok ()
    minio_remove_object := fun _ _ => Except.ok ()
    s3_delete_object := fun _ _ => Except.ok () }

/-- An SDK environment in which every call raises `NoSuchKey`. -/
def failEnv : SdkEnv :=
  { minio_list_objects := fun _ => Except.error ("NoSuchKey".data)
    s3_list_objects_v2 := fun _ => Except.error ("NoSuchKey".data)
    minio_fput_object := fun _ _ _ => Except.error ("NoSuchKey".data)
    s3_upload_file := fun _ _ _ => Except.error ("NoSuchKey".data)
    minio_fget_object := fun _ _ _ => Except.error ("NoSuchKey".data)
    s3_download_file := fun _ _ _ => Except.error ("NoSuchKey".data)
    minio_remove_object := fun _ _ => Except.error ("NoSuchKey".data)
    s3_delete_object := fun _ _ => Except.error ("NoSuchKey".data) }

/-- A host in which every file exists and every import succeeds. -/
def okHost : HostEnv :=
  { file_exists := fun _ => true
    stl_import := fun _ => Except.ok ()
    obj_import := fun _ => Except.ok ()
    usd_import := fun _ => Except.ok ()
    ply_import := fun _ => Except.ok () }

/-! ### C6: missing active connection -/

/-- C6: with no active connection, list/upload/download each log the
missing-connection error, return their failure sentinel (`[]`, `False`,
`None`), leave the state untouched, and issue no SDK call. -/
theorem missing_connection_short_circuits (env : SdkEnv) (st : AddonState)
    (local_path remote_name local_dir : Chars) :
    list_files_in_bucket env none st
        = { result := [], state := st, events := [Event.log_error noConnMsg] }
    ∧ upload_file env none local_path remote_name st
        = { result := false, state := st, events := [Event.log_error noConnMsg] }
    ∧ download_file env none remote_name local_dir st
        = { result := none, state := st, events := [Event.log_error noConnMsg] }
    ∧ sdkCallsOf [Event.log_error noConnMsg] = [] :=
  ⟨rfl, rfl, rfl, rfl⟩

/-! ### C3: download failure appends exactly one error entry -/

/-- C3: when the get call for a remote key raises (e.g. the key does not
exist), `download_file` returns `None` and the only state change is that the
exception text is appended (once) to `error_messages`. -/
theorem download_file_error_appends_one (env : SdkEnv) (conn : Connection)
    (remote_name local_dir : Chars) (st : AddonState) (e : Chars) :
    (conn.cloud_type = CloudType.minio →
      st.minio_client.isSome = true →
      env.minio_fget_object conn.bucket_name remote_name
          (path_join local_dir (basename remote_name)) = Except.error e →
      download_file env (some conn) remote_name local_dir st
        = { result := none
            state := { st with error_messages := st.error_messages ++ [e] }
            events := [Event.sdk (SdkCall.minio_fget_object conn.bucket_name remote_name
                (path_join local_dir (basename remote_name))),
              Event.log_error (downloadErrMsg e)] })
    ∧ (conn.cloud_type = CloudType.s3 →
      st.s3_client.isSome = true →
      env.s3_download_file conn.bucket_name remote_name
          (path_join local_dir (basename remote_name)) = Except.error e →
      download_file env (some conn) remote_name local_dir st
        = { result := none
            state := { st with error_messages := st.error_messages ++ [e] }
            events := [Event.sdk (SdkCall.s3_download_file conn.bucket_name remote_name
                (path_join local_dir (basename remote_name))),
              Event.log_error (downloadErrMsg e)] }) := by
  constructor
  · intro hct hcl henv
    obtain ⟨mc, hmc⟩ := Option.isSome_iff_exists.mp hcl
    simp [download_file, hct, hmc, henv, appendError]
  · intro hct hcl henv
    obtain ⟨sc, hsc⟩ := Option.isSome_iff_exists.mp hcl
    simp [download_file, hct, hsc, henv, appendError]

/-- Witness for `download_file_error_appends_one`: a concrete failing minio
download of key `missing.blend`. -/
theorem download_file_error_appends_one_witness :
    (sampleMinioConn.cloud_type = CloudType.minio
        ∧ stateWithMinio.minio_client.isSome = true
        ∧ failEnv.minio_fget_object sampleMinioConn.bucket_name ("missing.blend".data)
            (path_join ("/tmp".data) (basename ("missing.blend".data)))
          = Except.error ("NoSuchKey".data))
    ∧ download_file failEnv (some sampleMinioConn) ("missing.blend".data) ("/tmp".data)
          stateWithMinio
        = { result := none
            state := { stateWithMinio with
              error_messages := stateWithMinio.error_messages ++ [("NoSuchKey".data)] }
            events := [Event.sdk (SdkCall.minio_fget_object sampleMinioConn.bucket_name
                ("missing.blend".data)
                (path_join ("/tmp".data) (basename ("missing.blend".data)))),
              Event.log_error (downloadErrMsg ("NoSuchKey".data))] } :=
  ⟨⟨rfl, rfl, rfl⟩,
    (download_file_error_appends_one failEnv sampleMinioConn ("missing.blend".data)
        ("/tmp".data) stateWithMinio ("NoSuchKey".data)).1 rfl rfl rfl⟩

/-! ### C9: the local path of a successful download -/

/-- C9: a successful download returns exactly
`os.path.join(local_dir, os.path.basename(remote_name))`, and any two remote
keys with the same final segment are written to the same local path. -/
theorem download_file_success_path (env : SdkEnv) (conn : Connection)
    (remote_name local_dir : Chars) (st : AddonState) :
    (conn.cloud_type = CloudType.minio →
      st.minio_client.isSome = true →
      env.minio_fget_object conn.bucket_name remote_name
          (path_join local_dir (basename remote_name)) = Except.ok () →
      (download_file env (some conn) remote_name local_dir st).result
        = some (path_join local_dir (basename remote_name)))
    ∧ (conn.cloud_type = CloudType.s3 →
      st.s3_client.isSome = true →
      env.s3_download_file conn.bucket_name remote_name
          (path_join local_dir (basename remote_name)) = Except.ok () →
      (download_file env (some conn) remote_name local_dir st).result
        = some (path_join local_dir (basename remote_name)))
    ∧ (∀ k1 k2 : Chars, basename k1 = basename k2 →
        path_join local_dir (basename k1) = path_join local_dir (basename k2)) := by
  refine ⟨?_, ?_, ?_⟩
  · intro hct hcl henv
    obtain ⟨mc, hmc⟩ := Option.isSome_iff_exists.mp hcl
    simp [download_file, hct, hmc, henv]
  · intro hct hcl henv
    obtain ⟨sc, hsc⟩ := Option.isSome_iff_exists.mp hcl
    simp [download_file, hct, hsc, henv]
  · intro k1 k2 h
    rw [h]

/-- Witness for `download_file_success_path`: a successful minio download of
`a/model.stl`, and the clashing key `b/model.stl` with the same basename. -/
theorem download_file_success_path_witness :
    (sampleMinioConn.cloud_type = CloudType.minio
        ∧ stateWithMinio.minio_client.isSome = true
        ∧ okEnv.minio_fget_object sampleMinioConn.bucket_name ("a/model.stl".data)
            (path_join ("/tmp".data) (basename ("a/model.stl".data))) = Except.ok ()
        ∧ basename ("a/model.stl".data) = basename ("b/model.stl".data))
    ∧ (download_file okEnv (some sampleMinioConn) ("a/model.stl".data) ("/tmp".data)
          stateWithMinio).result
        = some (path_join ("/tmp".data) (basename ("a/model.stl".data)))
    ∧ path_join ("/tmp".data) (basename ("a/model.stl".data))
        = path_join ("/tmp".data) (basename ("b/model.stl".data)) :=
  ⟨⟨rfl, rfl, rfl, by decide⟩,
    (download_file_success_path okEnv sampleMinioConn ("a/model.stl".data) ("/tmp".data)
        stateWithMinio).1 rfl rfl rfl,
    (download_file_success_path okEnv sampleMinioConn ("a/model.stl".data) ("/tmp".data)
        stateWithMinio).2.2 ("a/model.stl".data) ("b/model.stl".data) (by decide)⟩

/-! ### C4: when is the SDK client (re)constructed? -/

theorem initsOf_append (a b : List Event) : initsOf (a ++ b) = initsOf a ++ initsOf b := by
  simp [initsOf, List.filter_append]

theorem initsOf_nil : initsOf [] = [] := rfl

theorem initsOf_cons_sdk (c : SdkCall) (evs : List Event) :
    initsOf (Event.sdk c :: evs) = initsOf evs := rfl

theorem initsOf_cons_log (m : Chars) (evs : List Event) :
    initsOf (Event.log_error m :: evs) = initsOf evs := rfl

theorem initsOf_cons_refresh (evs : List Event) :
    initsOf (Event.request_refresh :: evs) = initsOf evs := rfl

theorem initsOf_download_file (env : SdkEnv) (conn? : Option Connection)
    (remote_name local_dir : Chars) (st : AddonState) :
    initsOf (download_file env conn? remote_name local_dir st).events = [] := by
  cases conn? with
  | none => rfl
  | some conn =>
    cases hct : conn.cloud_type
    · cases hmc : st.minio_client with
      | none => simp [download_file, hct, hmc, initsOf]
      | some mc =>
        cases henv : env.minio_fget_object conn.bucket_name remote_name
            (path_join local_dir (basename remote_name)) <;>
          simp [download_file, hct, hmc, henv, initsOf]
    · cases hsc : st.s3_client with
      | none => simp [download_file, hct, hsc, initsOf]
      | some sc =>
        cases henv : env.s3_download_file conn.bucket_name remote_name
            (path_join local_dir (basename remote_name)) <;>
          simp [download_file, hct, hsc, henv, initsOf]

theorem initsOf_init_cloud_client (conn : Connection) (st : AddonState) :
    initsOf (init_cloud_client (some conn) st).2 = [initEventFor conn] := by
  cases hct : conn.cloud_type <;> simp [init_cloud_client, initEventFor, hct, initsOf]

/-- C4 (amended): only the download operator constructs the SDK client on
every call; `list_files_in_bucket` constructs it only when the global client
for the active cloud type is still `None` (and reuses the cached one
otherwise); `upload_file` and the delete operator never construct a client. -/
theorem client_init_discipline (env : SdkEnv) (conn : Connection) (st : AddonState)
    (temp_dir file_name local_path remote_name : Chars) :
    (initsOf (CloudDownloadFileOperator_execute env (some conn) temp_dir file_name st).events
        = [initEventFor conn])
    ∧ (conn.cloud_type = CloudType.minio → st.minio_client = none →
        initsOf (list_files_in_bucket env (some conn) st).events = [initEventFor conn])
    ∧ (conn.cloud_type = CloudType.s3 → st.s3_client = none →
        initsOf (list_files_in_bucket env (some conn) st).events = [initEventFor conn])
    ∧ (conn.cloud_type = CloudType.minio → st.minio_client.isSome = true →
        initsOf (list_files_in_bucket env (some conn) st).events = [])
    ∧ (conn.cloud_type = CloudType.s3 → st.s3_client.isSome = true →
        initsOf (list_files_in_bucket env (some conn) st).events = [])
    ∧ initsOf (upload_file env (some conn) local_path remote_name st).events = []
    ∧ initsOf (CloudDeleteFileOperator_execute env (some conn) file_name st).events = [] := by
  refine ⟨?_, ?_, ?_, ?_, ?_, ?_, ?_⟩
  · cases hres : (download_file env (some conn) file_name temp_dir
        (init_cloud_client (some conn) st).1).result with
    | some lp =>
      simp [CloudDownloadFileOperator_execute, hres, initsOf_append,
        initsOf_download_file, initsOf_init_cloud_client]
    | none =>
      simp [CloudDownloadFileOperator_execute, hres, initsOf_append,
        initsOf_download_file, initsOf_init_cloud_client]
  · intro hct hmc
    cases henv : env.minio_list_objects conn.bucket_name <;>
      simp [list_files_in_bucket, hct, hmc, henv, initsOf_append,
        initsOf_init_cloud_client, initsOf_cons_sdk, initsOf_cons_log, initsOf_nil]
  · intro hct hsc
    cases henv : env.s3_list_objects_v2 conn.bucket_name <;>
      simp [list_files_in_bucket, hct, hsc, henv, initsOf_append,
        initsOf_init_cloud_client, initsOf_cons_sdk, initsOf_cons_log, initsOf_nil]
  · intro hct hcl
    obtain ⟨mc, hmc⟩ := Option.isSome_iff_exists.mp hcl
    cases henv : env.minio_list_objects conn.bucket_name <;>
      simp [list_files_in_bucket, hct, hmc, henv, initsOf_append, initsOf]
  · intro hct hcl
    obtain ⟨sc, hsc⟩ := Option.isSome_iff_exists.mp hcl
    cases henv : env.s3_list_objects_v2 conn.bucket_name <;>
      simp [list_files_in_bucket, hct, hsc, henv, initsOf_append, initsOf]
  · cases hct : conn.cloud_type
    · cases hmc : st.minio_client with
      | none => simp [upload_file, hct, hmc, initsOf]
      | some mc =>
        cases henv : env.minio_fput_object conn.bucket_name remote_name local_path <;>
          simp [upload_file, hct, hmc, henv, initsOf]
    · cases hsc : st.s3_client with
      | none => simp [upload_file, hct, hsc, initsOf]
      | some sc =>
        cases henv : env.s3_upload_file local_path conn.bucket_name remote_name <;>
          simp [upload_file, hct, hsc, henv, initsOf]
  · cases hct : conn.cloud_type
    · cases hmc : st.minio_client with
      | none => simp [CloudDeleteFileOperator_execute, hct, hmc, initsOf]
      | some mc =>
        cases henv : env.minio_remove_object conn.bucket_name file_name <;>
          simp [CloudDeleteFileOperator_execute, hct, hmc, henv, initsOf]
    · cases hsc : st.s3_client with
      | none => simp [CloudDeleteFileOperator_execute, hct, hsc, initsOf]
      | some sc =>
        cases henv : env.s3_delete_object conn.bucket_name file_name <;>
          simp [CloudDeleteFileOperator_execute, hct, hsc, henv, initsOf]

/-- C4 counterexample: with the minio client already cached, a list call, an
upload call and a delete call each construct no client at all, refuting
"the client is constructed anew on every list/upload/download/delete call". -/
theorem client_reinit_counterexample :
    initsOf (list_files_in_bucket okEnv (some sampleMinioConn) stateWithMinio).events = []
    ∧ initsOf (upload_file okEnv (some sampleMinioConn) ("/tmp/f.blend".data)
        ("f.blend".data) stateWithMinio).events = []
    ∧ initsOf (CloudDeleteFileOperator_execute okEnv (some sampleMinioConn)
        ("f.blend".data) stateWithMinio).events = [] := by
  decide

/-- Witness for `client_init_discipline` on concrete inputs. -/
theorem client_init_discipline_witness :
    (sampleMinioConn.cloud_type = CloudType.minio
        ∧ stateWithMinio.minio_client.isSome = true)
    ∧ initsOf (CloudDownloadFileOperator_execute okEnv (some sampleMinioConn)
        ("/tmp".data) ("f.blend".data) stateWithMinio).events = [initEventFor sampleMinioConn]
    ∧ initsOf (list_files_in_bucket okEnv (some sampleMinioConn) stateWithMinio).events = [] :=
  ⟨⟨rfl, rfl⟩,
    (client_init_discipline okEnv sampleMinioConn stateWithMinio ("/tmp".data)
        ("f.blend".data) ("/tmp/f.blend".data) ("f.blend".data)).1,
    (client_init_discipline okEnv sampleMinioConn stateWithMinio ("/tmp".data)
        ("f.blend".data) ("/tmp/f.blend".data) ("f.blend".data)).2.2.2.1 rfl rfl⟩

/-! ### C5: what reaches the SDK calls -/

/-- C5 (amended): each upload/download/delete issues exactly one matching SDK
call with the connection's bucket name, the remote key passed verbatim (no
path-separator normalization is applied), and the computed local path where
one is involved. -/
theorem sdk_delegation_verbatim (env : SdkEnv) (conn : Connection) (st : AddonState)
    (local_path remote_name file_name local_dir : Chars) :
    (conn.cloud_type = CloudType.minio → st.minio_client.isSome = true →
      sdkCallsOf (upload_file env (some conn) local_path remote_name st).events
        = [SdkCall.minio_fput_object conn.bucket_name remote_name local_path])
    ∧ (conn.cloud_type = CloudType.s3 → st.s3_client.isSome = true →
      sdkCallsOf (upload_file env (some conn) local_path remote_name st).events
        = [SdkCall.s3_upload_file local_path conn.bucket_name remote_name])
    ∧ (conn.cloud_type = CloudType.minio → st.minio_client.isSome = true →
      sdkCallsOf (download_file env (some conn) remote_name local_dir st).events
        = [SdkCall.minio_fget_object conn.bucket_name remote_name
            (path_join local_dir (basename remote_name))])
    ∧ (conn.cloud_type = CloudType.s3 → st.s3_client.isSome = true →
      sdkCallsOf (download_file env (some conn) remote_name local_dir st).events
        = [SdkCall.s3_download_file conn.bucket_name remote_name
            (path_join local_dir (basename remote_name))])
    ∧ (conn.cloud_type = CloudType.minio → st.minio_client.isSome = true →
      sdkCallsOf (CloudDeleteFileOperator_execute env (some conn) file_name st).events
        = [SdkCall.minio_remove_object conn.bucket_name file_name])
    ∧ (conn.cloud_type = CloudType.s3 → st.s3_client.isSome = true →
      sdkCallsOf (CloudDeleteFileOperator_execute env (some conn) file_name st).events
        = [SdkCall.s3_delete_object conn.bucket_name file_name]) := by
  refine ⟨?_, ?_, ?_, ?_, ?_, ?_⟩
  · intro hct hcl
    obtain ⟨mc, hmc⟩ := Option.isSome_iff_exists.mp hcl
    cases henv : env.minio_fput_object conn.bucket_name remote_name local_path <;>
      simp [upload_file, hct, hmc, henv, sdkCallsOf]
  · intro hct hcl
    obtain ⟨sc, hsc⟩ := Option.isSome_iff_exists.mp hcl
    cases henv : env.s3_upload_file local_path conn.bucket_name remote_name <;>
      simp [upload_file, hct, hsc, henv, sdkCallsOf]
  · intro hct hcl
    obtain ⟨mc, hmc⟩ := Option.isSome_iff_exists.mp hcl
    cases henv : env.minio_fget_object conn.bucket_name remote_name
        (path_join local_dir (basename remote_name)) <;>
      simp [download_file, hct, hmc, henv, sdkCallsOf]
  · intro hct hcl
    obtain ⟨sc, hsc⟩ := Option.isSome_iff_exists.mp hcl
    cases henv : env.s3_download_file conn.bucket_name remote_name
        (path_join local_dir (basename remote_name)) <;>
      simp [download_file, hct, hsc, henv, sdkCallsOf]
  · intro hct hcl
    obtain ⟨mc, hmc⟩ := Option.isSome_iff_exists.mp hcl
    cases henv : env.minio_remove_object conn.bucket_name file_name <;>
      simp [CloudDeleteFileOperator_execute, hct, hmc, henv, sdkCallsOf]
  · intro hct hcl
    obtain ⟨sc, hsc⟩ := Option.isSome_iff_exists.mp hcl
    cases henv : env.s3_delete_object conn.bucket_name file_name <;>
      simp [CloudDeleteFileOperator_execute, hct, hsc, henv, sdkCallsOf]

/-- C5 counterexample: uploading under the remote key `a\b.stl` hands the SDK
a key that still contains a backslash and no forward slash at all, refuting
"path separators in the key are normalized to forward slashes". -/
theorem sdk_key_normalization_counterexample :
    sdkCallsOf (upload_file okEnv (some sampleMinioConn) ("/tmp/ab.stl".data)
        ("a\\b.stl".data) stateWithMinio).events
      = [SdkCall.minio_fput_object sampleMinioConn.bucket_name ("a\\b.stl".data)
          ("/tmp/ab.stl".data)]
    ∧ ('\\' ∈ ("a\\b.stl".data)) ∧ ¬('/' ∈ ("a\\b.stl".data)) := by
  decide

/-- Witness for `sdk_delegation_verbatim` on concrete inputs. -/
theorem sdk_delegation_verbatim_witness :
    (sampleMinioConn.cloud_type = CloudType.minio
        ∧ stateWithMinio.minio_client.isSome = true)
    ∧ sdkCallsOf (upload_file okEnv (some sampleMinioConn) ("/tmp/f.blend".data)
          ("f.blend".data) stateWithMinio).events
        = [SdkCall.minio_fput_object sampleMinioConn.bucket_name ("f.blend".data)
            ("/tmp/f.blend".data)]
    ∧ sdkCallsOf (CloudDeleteFileOperator_execute okEnv (some sampleMinioConn)
          ("f.blend".data) stateWithMinio).events
        = [SdkCall.minio_remove_object sampleMinioConn.bucket_name ("f.blend".data)] :=
  ⟨⟨rfl, rfl⟩,
    (sdk_delegation_verbatim okEnv sampleMinioConn stateWithMinio ("/tmp/f.blend".data)
        ("f.blend".data) ("f.blend".data) ("/tmp".data)).1 rfl rfl,
    (sdk_delegation_verbatim okEnv sampleMinioConn stateWithMinio ("/tmp/f.blend".data)
        ("f.blend".data) ("f.blend".data) ("/tmp".data)).2.2.2.2.1 rfl rfl⟩

/-! ### C7: surfacing and clearing the error list -/

/-- C7 (amended): a non-refreshing draw pass shows at most the last 5
accumulated error messages and leaves the error list empty; a refreshing draw
pass returns early, showing nothing and leaving the state (the error list
included) untouched. -/
theorem draw_shows_last5_and_clears (st : AddonState) :
    (st.is_refreshing = false →
      (CloudIntegrationPanel_draw st).shown_errors = lastN 5 st.error_messages
      ∧ (CloudIntegrationPanel_draw st).shown_errors.length ≤ 5
      ∧ (CloudIntegrationPanel_draw st).state = { st with error_messages := [] })
    ∧ (st.is_refreshing = true →
      CloudIntegrationPanel_draw st = { shown_errors := [], state := st }) := by
  constructor
  · intro hr
    by_cases hemp : st.error_messages.isEmpty = true
    · have hmsg : st.error_messages = [] := List.isEmpty_iff.mp hemp
      refine ⟨?_, ?_, ?_⟩
      · simp [CloudIntegrationPanel_draw, hr, hemp, lastN, hmsg]
      · simp [CloudIntegrationPanel_draw, hr, hemp]
      · cases st with
        | mk a b c d e f g => simp_all [CloudIntegrationPanel_draw]
    · refine ⟨?_, ?_, ?_⟩
      · simp [CloudIntegrationPanel_draw, hr, hemp]
      · simp only [CloudIntegrationPanel_draw, hr, hemp]
        simp [lastN, List.length_drop]
        omega
      · simp [CloudIntegrationPanel_draw, hr, hemp]
  · intro hr
    simp [CloudIntegrationPanel_draw, hr]

/-- C7 counterexample: a draw pass that happens while `is_refreshing` is set
returns early and leaves a non-empty error list behind, refuting "afterwards
the error list is empty" for every state. -/
theorem draw_not_clearing_counterexample :
    (CloudIntegrationPanel_draw
        { emptyState with is_refreshing := true, error_messages := [("boom".data)] }
      ).state.error_messages = [("boom".data)] := by
  decide

/-- Witness for `draw_shows_last5_and_clears` on a concrete state with six
accumulated errors. -/
theorem draw_shows_last5_and_clears_witness :
    (({ emptyState with error_messages :=
          [("e1".data), ("e2".data), ("e3".data), ("e4".data), ("e5".data), ("e6".data)]
        } : AddonState).is_refreshing = false)
    ∧ ((CloudIntegrationPanel_draw { emptyState with error_messages :=
          [("e1".data), ("e2".data), ("e3".data), ("e4".data), ("e5".data), ("e6".data)] }
        ).shown_errors = lastN 5 ({ emptyState with error_messages :=
          [("e1".data), ("e2".data), ("e3".data), ("e4".data), ("e5".data), ("e6".data)]
        } : AddonState).error_messages
      ∧ (CloudIntegrationPanel_draw { emptyState with error_messages :=
          [("e1".data), ("e2".data), ("e3".data), ("e4".data), ("e5".data), ("e6".data)] }
        ).shown_errors.length ≤ 5
      ∧ (CloudIntegrationPanel_draw { emptyState with error_messages :=
          [("e1".data), ("e2".data), ("e3".data), ("e4".data), ("e5".data), ("e6".data)] }
        ).state = { ({ emptyState with error_messages :=
          [("e1".data), ("e2".data), ("e3".data), ("e4".data), ("e5".data), ("e6".data)]
        } : AddonState) with error_messages := [] }) :=
  ⟨rfl,
    (draw_shows_last5_and_clears { emptyState with error_messages :=
      [("e1".data), ("e2".data), ("e3".data), ("e4".data), ("e5".data), ("e6".data)] }).1 rfl⟩

/-! ### C8: unsupported extensions are rejected by the load operator -/

theorem foldl_basename_no_slash : ∀ (b : Chars), ('/' : Char) ∉ b → ∀ acc : Chars,
    List.foldl (fun acc c => if c = '/' then [] else acc ++ [c]) acc b = acc ++ b := by
  intro b
  induction b with
  | nil => intro _ acc; simp
  | cons c b ihb =>
    intro hb acc
    have hc : ¬(c = '/') := fun h => hb (by rw [h]; exact List.mem_cons_self '/' b)
    have hb' : ('/' : Char) ∉ b := fun hm => hb (List.mem_cons_of_mem c hm)
    rw [List.foldl_cons, if_neg hc, ihb hb' (acc ++ [c])]
    simp

theorem basename_append_no_slash (a b : Chars) (hb : ('/' : Char) ∉ b) :
    basename (a ++ b) = basename a ++ b := by
  unfold basename
  rw [List.foldl_append, foldl_basename_no_slash b hb]

theorem suffix_path_join (a b : Chars) : b <:+ path_join a b := by
  unfold path_join
  split
  · exact List.suffix_refl b
  · split
    · exact List.suffix_append a b
    · exact (List.suffix_cons '/' b).trans (List.suffix_append a ('/' :: b))

/-- A slash-free suffix of the lower-cased remote key survives into the
lower-cased local path computed by `download_file`. -/
theorem suffix_toLower_path_join (key sfx temp : Chars) (hsl : ('/' : Char) ∉ sfx)
    (h : sfx <:+ toLowerStr key) :
    sfx <:+ toLowerStr (path_join temp (basename key)) := by
  obtain ⟨t, ht⟩ := h
  have hlen : t.length + sfx.length = key.length := by
    have hh := congrArg List.length ht
    simpa [toLowerStr] using hh
  have hmapv : toLowerStr (key.drop t.length) = sfx := by
    show (key.drop t.length).map Char.toLower = sfx
    rw [List.map_drop]
    rw [show key.map Char.toLower = toLowerStr key from rfl, ← ht, List.drop_left]
  have hslv : ('/' : Char) ∉ key.drop t.length := by
    intro hc
    have hmem : Char.toLower '/' ∈ (key.drop t.length).map Char.toLower :=
      List.mem_map_of_mem Char.toLower hc
    have hlow : Char.toLower '/' = '/' := by decide
    rw [hlow, show (key.drop t.length).map Char.toLower
        = toLowerStr (key.drop t.length) from rfl, hmapv] at hmem
    exact hsl hmem
  have hbase : basename key = basename (key.take t.length) ++ key.drop t.length := by
    have hb := basename_append_no_slash (key.take t.length) (key.drop t.length) hslv
    rw [List.take_append_drop t.length key] at hb
    exact hb
  have hvsuf : key.drop t.length <:+ basename key :=
    ⟨basename (key.take t.length), hbase.symm⟩
  have hvjoin : key.drop t.length <:+ path_join temp (basename key) :=
    hvsuf.trans (suffix_path_join temp (basename key))
  have hmap := hvjoin.map Char.toLower
  rw [show (key.drop t.length).map Char.toLower
      = toLowerStr (key.drop t.length) from rfl, hmapv] at hmap
  exact hmap

/-- Two suffixes of one list are comparable; a suffix incomparable with a
known suffix cannot occur. -/
theorem suffix_clash_false (sfx other l : Chars) (hoth : other <:+ l)
    (h1 : ¬other <:+ sfx) (h2 : ¬sfx <:+ other) :
    sfx.isSuffixOf l = false := by
  cases hs : sfx.isSuffixOf l with
  | false => rfl
  | true =>
    have hs' : sfx <:+ l := List.isSuffixOf_iff_suffix.mp hs
    rcases List.suffix_or_suffix_of_suffix hs' hoth with hcmp | hcmp
    · exact absurd hcmp h2
    · exact absurd hcmp h1

/-- `download_file` returns either `None` or exactly the joined local path. -/
theorem download_file_result_cases (env : SdkEnv) (conn? : Option Connection)
    (remote_name local_dir : Chars) (st : AddonState) :
    (download_file env conn? remote_name local_dir st).result = none
    ∨ (download_file env conn? remote_name local_dir st).result
        = some (path_join local_dir (basename remote_name)) := by
  cases conn? with
  | none => exact Or.inl rfl
  | some conn =>
    cases hct : conn.cloud_type
    · cases hmc : st.minio_client with
      | none => exact Or.inl (by simp [download_file, hct, hmc])
      | some mc =>
        cases henv : env.minio_fget_object conn.bucket_name remote_name
            (path_join local_dir (basename remote_name)) with
        | ok u => exact Or.inr (by simp [download_file, hct, hmc, henv])
        | error e => exact Or.inl (by simp [download_file, hct, hmc, henv])
    · cases hsc : st.s3_client with
      | none => exact Or.inl (by simp [download_file, hct, hsc])
      | some sc =>
        cases henv : env.s3_download_file conn.bucket_name remote_name
            (path_join local_dir (basename remote_name)) with
        | ok u => exact Or.inr (by simp [download_file, hct, hsc, henv])
        | error e => exact Or.inl (by simp [download_file, hct, hsc, henv])

/-- C8: loading a file whose (lower-cased) name ends in the unsupported
extension `.gbx` is rejected: the operator returns `CANCELLED`, reports a
user-visible error, and invokes no host import operator. -/
theorem load_gbx_rejected (env : SdkEnv) (host : HostEnv) (conn? : Option Connection)
    (temp_dir file_name : Chars) (st : AddonState)
    (h : (".gbx".data) <:+ toLowerStr file_name) :
    (CloudLoadFileOperator_execute env host conn? temp_dir file_name st).result
        = OpResult.CANCELLED
    ∧ (CloudLoadFileOperator_execute env host conn? temp_dir file_name st).imports = []
    ∧ ∃ m, (ReportLevel.ERROR, m)
        ∈ (CloudLoadFileOperator_execute env host conn? temp_dir file_name st).reports := by
  have hgbxsl : ('/' : Char) ∉ (".gbx".data) := by decide
  rcases download_file_result_cases env conn? file_name temp_dir
      (init_cloud_client conn? st).1 with hres | hres
  · simp [CloudLoadFileOperator_execute, hres]
  · have hlow : (".gbx".data) <:+ toLowerStr (path_join temp_dir (basename file_name)) :=
      suffix_toLower_path_join file_name (".gbx".data) temp_dir hgbxsl h
    have hgbxB : (".gbx".data).isSuffixOf
        (toLowerStr (path_join temp_dir (basename file_name))) = true :=
      List.isSuffixOf_iff_suffix.mpr hlow
    have hstl := suffix_clash_false (".stl".data) (".gbx".data) _ hlow
      (by decide) (by decide)
    have hobj := suffix_clash_false (".obj".data) (".gbx".data) _ hlow
      (by decide) (by decide)
    have husd := suffix_clash_false (".usd".data) (".gbx".data) _ hlow
      (by decide) (by decide)
    have husda := suffix_clash_false (".usda".data) (".gbx".data) _ hlow
      (by decide) (by decide)
    have husdc := suffix_clash_false (".usdc".data) (".gbx".data) _ hlow
      (by decide) (by decide)
    have hply := suffix_clash_false (".ply".data) (".gbx".data) _ hlow
      (by decide) (by decide)
    by_cases hex : host.file_exists (path_join temp_dir (basename file_name)) = false
    · simp [CloudLoadFileOperator_execute, hres, hex]
    · simp [CloudLoadFileOperator_execute, hres, hex, hstl, hobj, husd, husda,
        husdc, hply, hgbxB]

/-- Witness for `load_gbx_rejected`: loading the remote key `e.gbx`. -/
theorem load_gbx_rejected_witness :
    ((".gbx".data) <:+ toLowerStr ("e.gbx".data))
    ∧ ((CloudLoadFileOperator_execute okEnv okHost (some sampleMinioConn) ("/tmp".data)
          ("e.gbx".data) stateWithMinio).result = OpResult.CANCELLED
      ∧ (CloudLoadFileOperator_execute okEnv okHost (some sampleMinioConn) ("/tmp".data)
          ("e.gbx".data) stateWithMinio).imports = []
      ∧ ∃ m, (ReportLevel.ERROR, m)
          ∈ (CloudLoadFileOperator_execute okEnv okHost (some sampleMinioConn) ("/tmp".data)
              ("e.gbx".data) stateWithMinio).reports) :=
  ⟨by decide,
    load_gbx_rejected okEnv okHost (some sampleMinioConn) ("/tmp".data) ("e.gbx".data)
      stateWithMinio (by decide)⟩
